import Mathlib

/-!
Verification of the stratum-client core against its specification.

Shallow embedding of the job/difficulty coordinator
(`src/stratum/v1/jobs.rs`) and the connection engine
(`src/stratum/v1/connection.rs`) of the `stratum-client` repository,
together with theorems settling the frozen claims about them.

Modelling conventions:
* `serde_json::Value` is embedded as the inductive `Json`.
* Rust `f64` difficulty values are modelled as exact rationals (`ℚ`);
  every concrete value appearing in a theorem below is exactly
  representable in `f64` and the arithmetic on it is exact, so the
  modelled results coincide with the `f64` results at those inputs.
  Theorems that quantify over difficulties evaluate the division model
  only on domains where it provably coincides with the IEEE-754
  computation (see the doc comment of `target_mantissa`).  The Rust
  saturating cast `as u16` is inside `target_mantissa`.
* `u64` counters wrap: increments are taken modulo `2 ^ 64`
  (`u64Mod`), as Rust release-mode `+=`/`fetch_add` do.
* `Instant::now()` timestamps carry no usable value in a pure model;
  `last_message_at` is `Option Unit`, recording only set/unset.
* Mutex acquisition always succeeds in this sequential model (the
  lock-timeout early returns touch no state we reason about); the
  network and the pool are an oracle supplying each attempt's outcome.
-/

/-- The modulus of Rust's `u64` wrapping arithmetic. -/
def u64Mod : Nat := 2 ^ 64

/-- Embedding of `serde_json::Value`. -/
inductive Json where
  | null : Json
  | bool (b : Bool) : Json
  | num (q : ℚ) : Json
  | str (s : String) : Json
  | arr (xs : List Json) : Json
  | obj (kvs : List (String × Json)) : Json

/-- Embedding of `Value::as_str`. -/
def Json.asStr : Json → Option String
  | .str s => some s
  | _ => none

/-- Embedding of `Value::as_array`. -/
def Json.asArray : Json → Option (List Json)
  | .arr xs => some xs
  | _ => none

/-- Embedding of `Value::as_bool`. -/
def Json.asBool : Json → Option Bool
  | .bool b => some b
  | _ => none

/-- Embedding of `Value::as_f64`: every JSON number converts, nothing else does
(numbers are modelled as exact rationals). -/
def Json.asF64 : Json → Option ℚ
  | .num q => some q
  | _ => none

/-- Embedding of `StratumError` (`src/stratum/error.rs`). -/
inductive StratumError where
  | Json (msg : String)
  | Io (msg : String)
  | HexDecode (msg : String)
  | Protocol (msg : String)
  | AuthenticationFailed (msg : String)
  | SubscriptionFailed (msg : String)
  | InvalidJob (msg : String)
  | Connection (msg : String)
deriving DecidableEq, Repr

/-- A hex digit as accepted by `hex::decode`. -/
def isHexDigit (c : Char) : Bool :=
  (('0' ≤ c) && (c ≤ '9')) || (('a' ≤ c) && (c ≤ 'f')) || (('A' ≤ c) && (c ≤ 'F'))

/-- Embedding of `hex::decode(s).is_ok()`: even length and every character a hex digit. -/
def hexDecodeOk (s : String) : Bool :=
  s.length % 2 == 0 && s.data.all isHexDigit

/-- Lowercase hex digit for a value `< 16`, as `hex::encode` produces. -/
def hexDigitChar (n : Nat) : Char :=
  if n < 10 then Char.ofNat ('0'.toNat + n) else Char.ofNat ('a'.toNat + (n - 10))

/-- One byte as two lowercase hex characters. -/
def byteToHex (b : Nat) : String :=
  String.mk [hexDigitChar (b / 16), hexDigitChar (b % 16)]

/-- Embedding of `hex::encode` on a byte sequence. -/
def hexEncode (bs : List Nat) : String :=
  String.join (bs.map byteToHex)

/-- Embedding of `MiningTarget` (`src/stratum/types.rs`): difficulty as an
exact rational standing for the `f64`, target as its hex string. -/
structure MiningTarget where
  difficulty : ℚ
  target : String
deriving DecidableEq, Repr

/-- Embedding of `MiningJob` as used by `src/stratum/v1/jobs.rs` (with the
optional `target` bound at dispatch time). -/
structure MiningJob where
  job_id : String
  prev_hash : String
  coinbase1 : String
  coinbase2 : String
  merkle_branch : List String
  version : String
  nbits : String
  ntime : String
  clean_jobs : Bool
  target : Option MiningTarget
deriving DecidableEq, Repr

/-- Embedding of `Share` (`src/stratum/types.rs`). -/
structure Share where
  job_id : String
  extranonce2 : String
  ntime : String
  nonce : String
deriving DecidableEq, Repr

/-- Embedding of `JobManager::validate_job` (`jobs.rs` lines 176-256), translated
check by check in source order. -/
def validate_job (params : List Json) : Except StratumError MiningJob :=
  if params.length < 8 then
    .error (.InvalidJob "Incomplete job parameters")
  else match (params.getD 0 .null).asStr with
  | none => .error (.InvalidJob "Invalid job_id")
  | some job_id =>
    match (params.getD 1 .null).asStr with
    | none => .error (.InvalidJob "Invalid prev_hash")
    | some prev_hash =>
      if prev_hash.length ≠ 64 then
        .error (.InvalidJob "prev_hash must be 32 bytes")
      else match (params.getD 2 .null).asStr with
      | none => .error (.InvalidJob "Invalid coinbase1")
      | some coinbase1 =>
        if ¬ hexDecodeOk coinbase1 then
          .error (.InvalidJob "coinbase1 must be hex encoded")
        else match (params.getD 3 .null).asStr with
        | none => .error (.InvalidJob "Invalid coinbase2")
        | some coinbase2 =>
          if ¬ hexDecodeOk coinbase2 then
            .error (.InvalidJob "coinbase2 must be hex encoded")
          else match (params.getD 4 .null).asArray with
          | none => .error (.InvalidJob "Invalid merkle_branch")
          | some branchVals =>
            match (branchVals.map Json.asStr).allSome with
            | none => .error (.InvalidJob "Invalid merkle_branch format")
            | some merkle_branch =>
              match (params.getD 5 .null).asStr with
              | none => .error (.InvalidJob "Invalid version")
              | some version =>
                if version.length ≠ 8 then
                  .error (.InvalidJob "version must be 4 bytes")
                else match (params.getD 6 .null).asStr with
                | none => .error (.InvalidJob "Invalid nbits")
                | some nbits =>
                  if nbits.length ≠ 8 then
                    .error (.InvalidJob "nbits must be 4 bytes")
                  else match (params.getD 7 .null).asStr with
                  | none => .error (.InvalidJob "Invalid ntime")
                  | some ntime =>
                    if ntime.length ≠ 8 then
                      .error (.InvalidJob "ntime must be 4 bytes")
                    else
                      let clean_jobs :=
                        ((params.get? 8).bind Json.asBool).getD false
                      .ok { job_id, prev_hash, coinbase1, coinbase2,
                            merkle_branch, version, nbits, ntime,
                            clean_jobs, target := none }

/-- The expression `(0xffff as f64 / difficulty) as u16` from
`JobManager::calculate_target`, on the exact rational standing for the
`f64` difficulty, computed on the rational's components so that it is
kernel-computable.  Rust's `as u16` cast saturates: for
`difficulty > 0` the result is the floor of `65535 / difficulty`
(truncation towards zero of a positive value) clamped to `65535`; for
`difficulty < 0` the quotient is negative and clamps to `0`; for
`difficulty = 0` the `f64` quotient is `+∞` and clamps to `65535`.
For `0 < d`, `(65535 * d.den) / d.num = ⌊65535 / d⌋`
(`target_mantissa_eq_floor` below).

Fidelity of the division model.  The program divides in `f64`, which
rounds the quotient to the nearest double, so at non-integer
difficulties lying just above `65535 / n` the program's mantissa is
`n` while the exact quotient floors to `n - 1`: the double
`7281.666666666667` (exactly `8006277169588907 / 2 ^ 40`, slightly
above `65535 / 9`) makes `65535.0 / d` round to `9.0`, cast to `9`,
where `⌊65535 / d⌋ = 8`.  This exact-rational model therefore differs
from the program at such inputs, and theorems that use the mantissa's
numeric value are stated only where the two provably coincide:
* at any positive integer difficulty `k ≤ 2 ^ 53` (every such `k` is a
  double): the quotient `65535 / k` is at most `65535`, so the
  division's rounding error is at most half an ulp, `≤ 2 ^ (-37)`,
  while a non-integral quotient's distance to the nearest integer is
  `|65535 - n * k| / k ≥ 1 / k ≥ 2 ^ (-53)`, and already for
  `k ≤ 65535` it is `≥ 2 ^ (-16)`; for `k > 65535` the quotient is at
  most `65535 / 65536 = 1 - 2 ^ (-16)` and cannot round up to `1`.
  Hence truncation of the rounded quotient equals the exact floor;
* at any difficulty whose quotient `65535 / d` is itself exactly
  representable (for instance `d = 1/2`, quotient `131070`), where the
  `f64` division is exact. -/
def target_mantissa (d : ℚ) : Nat :=
  if d.num = 0 then 65535
  else if d.num < 0 then 0
  else min 65535 (Int.toNat ((65535 * (d.den : Int)) / d.num))

/-- Embedding of `JobManager::calculate_target` (`jobs.rs` lines 259-271): a 32-byte
array of zeros with bytes 2 and 3 set to the high and low byte of
`(0xffff as f64 / difficulty) as u16`.  The source only calls this with
positive difficulty (`handle_difficulty_notification` rejects
`difficulty <= 0` first). -/
def calculate_target (difficulty : ℚ) : List Nat :=
  let final_target := List.replicate 32 0
  let mantissa := target_mantissa difficulty
  (final_target.set 2 (mantissa / 256)).set 3 (mantissa % 256)

example : validate_job [] = .error (.InvalidJob "Incomplete job parameters") := by rfl

example : calculate_target 2 = ((List.replicate 32 0).set 2 127).set 3 255 := by decide

example : target_mantissa (Rat.divInt 1 2) = 65535 := by decide

example : hexDecodeOk "1234567890abcdef" = true := by decide

example : hexDecodeOk "invalid" = false := by decide

/-- The guarded slots of `JobManager` (`jobs.rs` lines 81-91) that the
notification handlers read and write.  `currently_running_job_id` and
`currently_running_merkle_root` are written by the background worker
task; the handlers only read them, so they are plain inputs here. -/
structure JMState where
  enqueued_job : Option MiningJob
  enqueued_difficulty : Option MiningTarget
  currently_running_job_id : Option String
  currently_running_merkle_root : Option (List String)
deriving DecidableEq, Repr

/-- The state of a freshly constructed `JobManager` (`JobManager::new`):
all four slots start at `None`. -/
def initJMState : JMState :=
  { enqueued_job := none
    enqueued_difficulty := none
    currently_running_job_id := none
    currently_running_merkle_root := none }

/-- Embedding of `JobManager::maybe_run_job` (`jobs.rs` lines 317-353).  Returns the
updated state and the job sent to the background miner task, if any.
The channel send is modelled as succeeding (it fails only when the
receiver task has been dropped).  As in the source, an absent
currently-running job id or merkle root is compared via
`unwrap_or_default()`, i.e. as `""` and `[]`. -/
def maybe_run_job (s : JMState) : JMState × Option MiningJob :=
  match s.enqueued_job, s.enqueued_difficulty with
  | some job, some difficulty =>
      let job_ids_changed := job.job_id ≠ s.currently_running_job_id.getD ""
      let merkle_root_changed :=
        job.merkle_branch ≠ s.currently_running_merkle_root.getD []
      let needs_to_run := job_ids_changed ∨ merkle_root_changed
      if needs_to_run then
        let job := { job with target := some difficulty }
        ({ s with enqueued_job := some job }, some job)
      else
        (s, none)
  | _, _ => (s, none)

/-- Embedding of `JobManager::handle_difficulty_notification` (`jobs.rs` lines
275-303).  Returns the state after the call together with the outcome;
on an error the locked slots were never written, so the input state is
returned unchanged.  The `Option MiningJob` in the success value is the
job dispatched by the final `maybe_run_job` call, if any. -/
def handle_difficulty_notification (params : List Json) (s : JMState) :
    JMState × Except StratumError (Option MiningJob) :=
  if params.isEmpty then
    (s, .error (.Protocol "Empty mining.set_difficulty params"))
  else match (params.getD 0 .null).asF64 with
  | none => (s, .error (.Protocol "Invalid difficulty value"))
  | some difficulty =>
    if difficulty ≤ 0 then
      (s, .error (.Protocol "Difficulty must be positive"))
    else
      let final_target := calculate_target difficulty
      let tgt : MiningTarget :=
        { difficulty := difficulty, target := hexEncode final_target }
      let s := { s with enqueued_difficulty := some tgt }
      let (s, sent) := maybe_run_job s
      (s, .ok sent)

/-- Embedding of `JobManager::handle_job_notification` (`jobs.rs` lines 307-315):
validate, store into `enqueued_job`, then `maybe_run_job`.  On a
validation error the state is untouched (the `?` fires before the
`enqueued_job` lock is taken). -/
def handle_job_notification (params : List Json) (s : JMState) :
    JMState × Except StratumError (Option MiningJob) :=
  match validate_job params with
  | .error e => (s, .error e)
  | .ok job =>
    let s := { s with enqueued_job := some job }
    let (s, sent) := maybe_run_job s
    (s, .ok sent)

/-- Embedding of `JobManager::get_job_or_error` (`jobs.rs` lines 355-361). -/
def get_job_or_error (s : JMState) : Except StratumError MiningJob :=
  match s.enqueued_job with
  | some job => .ok job
  | none => .error (.Protocol "No job available")

/-- Embedding of `JobManager::get_current_job` (`jobs.rs` lines 364-366). -/
def get_current_job (s : JMState) : Except StratumError (Option MiningJob) :=
  .ok s.enqueued_job

/-- Embedding of `JobManager::get_target` (`jobs.rs` lines 369-375): the target bound
onto the enqueued job, `Protocol` errors when there is no job or the
job carries no target. -/
def get_target (s : JMState) : Except StratumError MiningTarget :=
  match get_job_or_error s with
  | .error e => .error e
  | .ok job =>
    match job.target with
    | some t => .ok t
    | none => .error (.Protocol "No target set")

/-- Embedding of `JobManager::validate_share` (`jobs.rs` lines 378-409), check by
check in source order. -/
def validate_share (share : Share) (s : JMState) : Except StratumError Bool :=
  match get_job_or_error s with
  | .error e => .error e
  | .ok job =>
    if share.nonce.length ≠ 8 then
      .error (.InvalidJob "Invalid nonce format")
    else if ¬ hexDecodeOk share.nonce then
      .error (.InvalidJob "Nonce must be hex encoded")
    else if ¬ hexDecodeOk share.extranonce2 then
      .error (.InvalidJob "Extranonce2 must be hex encoded")
    else if share.ntime ≠ job.ntime then
      .error (.InvalidJob "Invalid ntime")
    else
      .ok true

/-- The valid `mining.notify` params used by the repository's own tests
(`create_valid_job_params` in `jobs.rs`). -/
def validJobParams : List Json :=
  [ .str "job123",
    .str "00000000000000000000000000000000000000000000000000000000deadbeef",
    .str "01000000",
    .str "02000000",
    .arr [.str "1234567890abcdef"],
    .str "00000001",
    .str "1d00ffff",
    .str "60509af9",
    .bool true ]

/-- The job those params validate to. -/
def validJob : MiningJob :=
  { job_id := "job123"
    prev_hash := "00000000000000000000000000000000000000000000000000000000deadbeef"
    coinbase1 := "01000000"
    coinbase2 := "02000000"
    merkle_branch := ["1234567890abcdef"]
    version := "00000001"
    nbits := "1d00ffff"
    ntime := "60509af9"
    clean_jobs := true
    target := none }

example : validate_job validJobParams = .ok validJob := by rfl

example :
    (handle_job_notification validJobParams initJMState).2 = .ok none := by rfl

example :
    (handle_difficulty_notification [.num (-1)] initJMState).2
      = .error (.Protocol "Difficulty must be positive") := by rfl

example :
    (handle_difficulty_notification [.str "invalid"] initJMState).2
      = .error (.Protocol "Invalid difficulty value") := by rfl

example :
    (handle_difficulty_notification [] initJMState).2
      = .error (.Protocol "Empty mining.set_difficulty params") := by rfl

/-- Escape one character as inside a `serde_json` string literal
(quote and backslash; control-character escapes are not exercised by
any claim and are left verbatim). -/
def escapeJsonChar (c : Char) : String :=
  if c = '"' then "\\\"" else if c = '\\' then "\\\\" else String.mk [c]

mutual

/-- Embedding of `serde_json::to_string` on a `Value`, as used on the `error` field
of a response.  Integer-valued numbers print as integers (as serde
does for integer JSON numbers); no claim exercises non-integer
number formatting. -/
def jsonEncode : Json → String
  | .null => "null"
  | .bool true => "true"
  | .bool false => "false"
  | .num q => if q.den = 1 then toString q.num
              else toString q.num ++ "/" ++ toString q.den
  | .str s => "\"" ++ String.join (s.data.map escapeJsonChar) ++ "\""
  | .arr xs => "[" ++ jsonEncodeList xs ++ "]"
  | .obj kvs => "\x7b" ++ jsonEncodeKVs kvs ++ "\x7d"

/-- Comma-separated encoding of an array's elements. -/
def jsonEncodeList : List Json → String
  | [] => ""
  | [x] => jsonEncode x
  | x :: xs => jsonEncode x ++ "," ++ jsonEncodeList xs

/-- Comma-separated encoding of an object's fields. -/
def jsonEncodeKVs : List (String × Json) → String
  | [] => ""
  | [(k, v)] => "\"" ++ String.join (k.data.map escapeJsonChar) ++ "\":"
                  ++ jsonEncode v
  | (k, v) :: kvs => "\"" ++ String.join (k.data.map escapeJsonChar) ++ "\":"
                  ++ jsonEncode v ++ "," ++ jsonEncodeKVs kvs

end

/-- Embedding of `JsonRpcResponse` (`src/stratum/v1/protocol.rs`). -/
structure JsonRpcResponse where
  id : Nat
  result : Option Json
  error : Option Json

/-- Embedding of `ConnectionConfig` (`src/stratum/v1/connection.rs`
lines 20-30).  `timeout`, `retry_delay` and `keepalive` do not affect
the pure model (sleeps are no-ops and socket deadlines are part of the
oracle outcomes) but are carried for fidelity. -/
structure ConnectionConfig where
  timeout : Nat
  max_retries : Nat
  retry_delay : Nat
  keepalive : Bool

/-- Embedding of `ConnectionStats` (`connection.rs` lines 44-52).
Counters are `u64` values (kept below `2 ^ 64`; increments wrap via
`% u64Mod` as Rust release-mode `+=` does); timestamps record only
whether they are set. -/
structure ConnStats where
  messages_sent : Nat
  messages_received : Nat
  errors : Nat
  retries : Nat
  last_message_at : Option Unit
  connected_since : Option Unit
deriving DecidableEq, Repr

/-- The mutable state of a `StratumConnection` the claims talk about:
the `id_counter` (`AtomicU64`, starting at 1 in `with_config`) and the
statistics. -/
structure ConnState where
  id_counter : Nat
  stats : ConnStats
deriving DecidableEq, Repr

/-- The connection state right after `StratumConnection::with_config`:
`id_counter = 1`, all counters zero, `connected_since` set. -/
def initConnState : ConnState :=
  { id_counter := 1
    stats := { messages_sent := 0, messages_received := 0, errors := 0,
               retries := 0, last_message_at := none,
               connected_since := some () } }

/-- Outcome of one attempt's `write_all` under `timeout`. -/
inductive WriteOutcome where
  | ok : WriteOutcome
  | ioErr (msg : String) : WriteOutcome
  | timeout (msg : String) : WriteOutcome

/-- Outcome of one attempt's `read_line` under `timeout`, with JSON
parsing of the returned line folded in: `parsed r` is a line on which
`serde_json::from_str::<JsonRpcResponse>` succeeds with `r`,
`parseErr` one on which it fails. -/
inductive ReadOutcome where
  | eof : ReadOutcome
  | parsed (r : JsonRpcResponse) : ReadOutcome
  | parseErr (msg : String) : ReadOutcome
  | ioErr (msg : String) : ReadOutcome
  | timeout (msg : String) : ReadOutcome

/-- What the network does on one `send_request` attempt: the write
outcome, and the read outcome used when the write succeeded. -/
structure AttemptBehavior where
  write : WriteOutcome
  read : ReadOutcome

/-- Result of a modelled `send_request` call: the returned value, the
connection state after the call, and the request ids consumed by the
attempts, in order. -/
structure SendOut where
  res : Except StratumError JsonRpcResponse
  st : ConnState
  ids : List Nat

/-- Outcome of the body of one `while` iteration of
`StratumConnection::send_request` (`connection.rs` lines 120-270),
after the request id has been consumed: either the function returns
(`done`), or the iteration failed, recorded its error and continues
(`retry`).  A failing branch returns directly when `retry_count + 1`
reaches `max_retries`, without running the post-loop stats update. -/
inductive StepResult where
  | done (res : Except StratumError JsonRpcResponse) (st : ConnState)
  | retry (err : StratumError) (st : ConnState)

/-- Shared failing-branch tail of the loop body: bump `retry_count`,
return the error if retries are exhausted, else sleep and continue. -/
def retryOrReturn (cfg : ConnectionConfig) (err : StratumError)
    (retry_count : Nat) (st : ConnState) : StepResult :=
  if retry_count + 1 = cfg.max_retries then .done (.error err) st
  else .retry err st

/-- The body of one `send_request` attempt (after the id was consumed):
serialization of the request cannot fail, the writer and reader locks
are acquired (their timeout paths touch none of the modelled state),
then the write and read outcomes are handled as in the source. -/
def send_step (cfg : ConnectionConfig) (a : AttemptBehavior) (retry_count : Nat)
    (st : ConnState) : StepResult :=
  match a.write with
  | .ioErr m => retryOrReturn cfg (.Protocol ("Write error: " ++ m)) retry_count st
  | .timeout m => retryOrReturn cfg (.Protocol ("Write timeout: " ++ m)) retry_count st
  | .ok =>
    let st := { st with stats := { st.stats with
      messages_sent := (st.stats.messages_sent + 1) % u64Mod,
      last_message_at := some () } }
    match a.read with
    | .eof => retryOrReturn cfg (.Protocol "Empty response from server") retry_count st
    | .ioErr m => retryOrReturn cfg (.Protocol ("Read error: " ++ m)) retry_count st
    | .timeout m => retryOrReturn cfg (.Protocol ("Read timeout: " ++ m)) retry_count st
    | .parseErr m =>
      let st := { st with stats := { st.stats with
        errors := (st.stats.errors + 1) % u64Mod,
        retries := (st.stats.retries + 1) % u64Mod } }
      retryOrReturn cfg (.Protocol ("Invalid JSON response: " ++ m)) retry_count st
    | .parsed response =>
      let st := { st with stats := { st.stats with
        messages_received := (st.stats.messages_received + 1) % u64Mod,
        last_message_at := some () } }
      match response.error with
      | some error => .done (.error (.Protocol (jsonEncode error))) st
      | none => .done (.ok response) st

/-- The `while retry_count < max_retries` loop of `send_request`.
`net k` is the network's behaviour on attempt `k`; `fuel` is
`max_retries - retry_count`, so the loop guard failing is `fuel = 0`.
Each iteration first consumes an id from the `AtomicU64` counter
(`fetch_add(1)`, wrapping).  When the guard fails the post-loop stats
update runs and the last recorded error (or the max-retries message)
is returned. -/
def send_request_go (cfg : ConnectionConfig) (net : Nat → AttemptBehavior) :
    Nat → Nat → ConnState → Option StratumError → List Nat → SendOut
  | 0, retry_count, st, last_error, ids =>
    let st := { st with stats := { st.stats with
      errors := (st.stats.errors + 1) % u64Mod,
      retries := (st.stats.retries + retry_count) % u64Mod } }
    { res := .error (last_error.getD (.Protocol
        ("Max retries (" ++ toString cfg.max_retries ++ ") exceeded"))),
      st := st, ids := ids }
  | fuel + 1, retry_count, st, _last_error, ids =>
    let id := st.id_counter
    let st := { st with id_counter := (st.id_counter + 1) % u64Mod }
    let ids := ids ++ [id]
    match send_step cfg (net retry_count) retry_count st with
    | .done res st => { res := res, st := st, ids := ids }
    | .retry err st => send_request_go cfg net fuel (retry_count + 1) st (some err) ids

/-- Embedding of `StratumConnection::send_request` (`connection.rs` lines 112-284):
run the retry loop from `retry_count = 0` with no recorded error. -/
def send_request (cfg : ConnectionConfig) (net : Nat → AttemptBehavior)
    (st : ConnState) : SendOut :=
  send_request_go cfg net cfg.max_retries 0 st none []

/-- Outcome of a `read_notification` read: the first non-timeout result
of `read_line` (the source loops on read timeouts without touching any
state), with JSON parsing of the line folded in.  `parseErrEmpty` is a
line whose trimmed content is empty (parse fails, treated as `null`);
`parseErr` a non-empty unparsable line. -/
inductive NotifOutcome where
  | eof : NotifOutcome
  | parsed (v : Json) : NotifOutcome
  | parseErrEmpty : NotifOutcome
  | parseErr (msg : String) : NotifOutcome
  | ioErr (msg : String) : NotifOutcome

/-- Embedding of `StratumConnection::read_notification` (`connection.rs` lines
287-345).  After the reader lock is acquired, the source increments
`stats.errors` unconditionally (the comment above that block says
"if we got a timeout", but on a lock timeout the function has already
returned, so the increment runs precisely when the lock was acquired);
then the read outcome is handled as in the source. -/
def read_notification (outcome : NotifOutcome) (st : ConnState) :
    ConnState × Except StratumError Json :=
  let st := { st with stats := { st.stats with
    errors := (st.stats.errors + 1) % u64Mod } }
  match outcome with
  | .eof => (st, .ok .null)
  | .parsed v =>
    ({ st with stats := { st.stats with
        messages_received := (st.stats.messages_received + 1) % u64Mod,
        last_message_at := some () } }, .ok v)
  | .parseErrEmpty => (st, .ok .null)
  | .parseErr m =>
    ({ st with stats := { st.stats with
        errors := (st.stats.errors + 1) % u64Mod } },
     .error (.Protocol ("Invalid JSON notification: " ++ m)))
  | .ioErr m =>
    ({ st with stats := { st.stats with
        errors := (st.stats.errors + 1) % u64Mod } },
     .error (.Protocol ("Read error in notifications: " ++ m)))

example :
    (send_request { timeout := 20, max_retries := 0, retry_delay := 1,
                    keepalive := true } (fun _ => ⟨.ok, .eof⟩) initConnState).res
      = .error (.Protocol "Max retries (0) exceeded") := by rfl

example :
    (send_request { timeout := 20, max_retries := 3, retry_delay := 1,
                    keepalive := true }
      (fun _ => ⟨.ok, .parsed ⟨1, some (.bool true), none⟩⟩) initConnState).ids
      = [1] := by rfl

example :
    (read_notification (.parsed .null) initConnState).1.stats.errors = 1 := by rfl

/-- The dispatch condition exactly as the claim words it: both
`enqueued_job` and `enqueued_difficulty` are present, and the job's
`job_id` or `merkle_branch` differs from the currently running one
(with no running job, the comparison is against the empty id and the
empty branch list, the source's `unwrap_or_default()`). -/
def claimShouldDispatch (s : JMState) : Prop :=
  ∃ j d, s.enqueued_job = some j ∧ s.enqueued_difficulty = some d ∧
    (j.job_id ≠ s.currently_running_job_id.getD "" ∨
     j.merkle_branch ≠ s.currently_running_merkle_root.getD [])

instance (s : JMState) : Decidable (claimShouldDispatch s) := by
  unfold claimShouldDispatch
  cases s.enqueued_job <;> cases s.enqueued_difficulty <;>
    simp <;> infer_instance

/-- The ids a wrapping `u64` counter starting at `c` hands out over `n`
`fetch_add(1)` calls. -/
def emittedFrom (c n : Nat) : List Nat :=
  (List.range n).map (fun i => (c + i) % u64Mod)

/-- A sequence of `send_request` calls on one connection: each call
threads the connection state (id counter, stats) into the next.
Returns all consumed request ids in order, and the final state. -/
def run_requests (cfg : ConnectionConfig) :
    List (Nat → AttemptBehavior) → ConnState → List Nat × ConnState
  | [], st => ([], st)
  | net :: rest, st =>
    let out := send_request cfg net st
    let later := run_requests cfg rest out.st
    (out.ids ++ later.1, later.2)

/-- Params of `mining.notify` with a `prev_hash` of the wrong length
(the spec's scenario S2), otherwise valid. -/
def badPrevHashParams : List Json :=
  validJobParams.set 1 (.str "invalid")

/-- Params of `mining.notify` whose `prev_hash` is a 64-character string
made of `'z'`, which is not a hex digit; all other elements valid. -/
def zPrevHash : String :=
  String.mk (List.replicate 64 'z')

/-- Params carrying `zPrevHash`. -/
def zPrevHashParams : List Json :=
  validJobParams.set 1 (.str zPrevHash)

/-- The job `validate_job` produces from `zPrevHashParams`. -/
def zPrevHashJob : MiningJob :=
  { validJob with prev_hash := zPrevHash }

/-- A default configuration (`ConnectionConfig::default()`):
timeout 20s, 3 retries, 1s backoff base, keepalive on. -/
def defaultConfig : ConnectionConfig :=
  { timeout := 20, max_retries := 3, retry_delay := 1, keepalive := true }

/-- The default configuration with `max_retries = 0`. -/
def zeroRetryConfig : ConnectionConfig :=
  { defaultConfig with max_retries := 0 }

/-- A pool that answers every attempt with a successful write and a
well-formed response whose `error` field is null. -/
def okPool : Nat → AttemptBehavior :=
  fun _ => { write := .ok, read := .parsed { id := 1, result := some (.bool true), error := none } }

/-- A pool that answers every attempt with a successful write and a
well-formed response whose `error` field is the string `"boom"`. -/
def errPool : Nat → AttemptBehavior :=
  fun _ => { write := .ok, read := .parsed { id := 1, result := none, error := some (.str "boom") } }

theorem validate_job_error_isInvalidJob {params : List Json} {e : StratumError}
    (h : validate_job params = .error e) : ∃ msg, e = .InvalidJob msg := by
  unfold validate_job at h
  repeat' split at h
  all_goals first
    | exact ⟨_, (Except.error.inj h).symm⟩
    | exact Except.noConfusion h

theorem validate_job_ok_prev_hash {params : List Json} {j : MiningJob}
    (h : validate_job params = .ok j) :
    (params.getD 1 Json.null).asStr = some j.prev_hash ∧
      j.prev_hash.length = 64 := by
  unfold validate_job at h
  repeat' split at h
  all_goals first
    | exact Except.noConfusion h
    | (simp only [Except.ok.injEq] at h; subst h; simp_all)

/-- C1: `maybe_run_job` sends a job to the background miner task iff
both `enqueued_job` and `enqueued_difficulty` are present and the job's
`job_id` or `merkle_branch` differs from the currently running one;
when it sends, the enqueued difficulty is bound onto the job as its
target; otherwise nothing is sent and the state is unchanged. -/
theorem c1_maybe_run_job_dispatch (s : JMState) :
    ((maybe_run_job s).2.isSome ↔ claimShouldDispatch s) ∧
    (∀ j d, s.enqueued_job = some j → s.enqueued_difficulty = some d →
      (j.job_id ≠ s.currently_running_job_id.getD "" ∨
       j.merkle_branch ≠ s.currently_running_merkle_root.getD []) →
      (maybe_run_job s).2 = some { j with target := some d }) ∧
    (¬ claimShouldDispatch s → maybe_run_job s = (s, none)) := by
  obtain ⟨ej, ed, cr, cm⟩ := s
  cases ej with
  | none => simp [maybe_run_job, claimShouldDispatch]
  | some j =>
    cases ed with
    | none => simp [maybe_run_job, claimShouldDispatch]
    | some d =>
      simp only [maybe_run_job, claimShouldDispatch]
      split
      next h => simp_all
      next h => simp_all

/-- Concrete instance of `c1_maybe_run_job_dispatch`: with a fresh
running slot, the test job and a difficulty, the job is dispatched
with the difficulty bound on. -/
theorem c1_maybe_run_job_dispatch_witness :
    (maybe_run_job { enqueued_job := some validJob,
                     enqueued_difficulty := some ⟨1, "00"⟩,
                     currently_running_job_id := none,
                     currently_running_merkle_root := none }).2
      = some { validJob with target := some ⟨1, "00"⟩ } :=
  (c1_maybe_run_job_dispatch _).2.1 validJob ⟨1, "00"⟩ rfl rfl
    (Or.inl (by decide))

/-- C4: when job validation fails, `handle_job_notification` returns
that error, the error is an `InvalidJob`, and the state — hence
`get_current_job` — is unchanged. -/
theorem c4_invalid_job_leaves_state (params : List Json) (s : JMState)
    (e : StratumError) (h : validate_job params = .error e) :
    handle_job_notification params s = (s, .error e) ∧
    (∃ msg, e = .InvalidJob msg) ∧
    get_current_job (handle_job_notification params s).1
      = get_current_job s := by
  have h1 : handle_job_notification params s = (s, .error e) := by
    unfold handle_job_notification
    rw [h]
  exact ⟨h1, validate_job_error_isInvalidJob h, by rw [h1]⟩

/-- Concrete instance of `c4_invalid_job_leaves_state`: the spec's S2
scenario, a `prev_hash` of the wrong length. -/
theorem c4_invalid_job_leaves_state_witness :
    handle_job_notification badPrevHashParams initJMState
      = (initJMState, .error (.InvalidJob "prev_hash must be 32 bytes")) :=
  (c4_invalid_job_leaves_state badPrevHashParams initJMState
    (.InvalidJob "prev_hash must be 32 bytes") rfl).1

/-- C5 fails as stated: a 64-character `prev_hash` made entirely of the
non-hex character `'z'` is accepted by `validate_job` (the source
checks only the length, never the characters). -/
theorem c5_counterexample :
    validate_job zPrevHashParams = .ok zPrevHashJob ∧
    zPrevHash.length = 64 ∧
    zPrevHash.data.all isHexDigit = false :=
  ⟨rfl, rfl, rfl⟩

/-- C5 (amended): `validate_job` accepts only a `prev_hash` that is a
string of exactly 64 characters (hex content is not checked), and
every validation failure is an `InvalidJob` error. -/
theorem c5_amended_prev_hash_length (params : List Json) :
    ((validate_job params).isOk = true →
      ∃ s, (params.getD 1 Json.null).asStr = some s ∧ s.length = 64) ∧
    (∀ e, validate_job params = .error e → ∃ msg, e = .InvalidJob msg) := by
  constructor
  · intro h
    cases hv : validate_job params with
    | ok j =>
      have hp := validate_job_ok_prev_hash hv
      exact ⟨j.prev_hash, hp.1, hp.2⟩
    | error e =>
      rw [hv] at h
      exact Bool.noConfusion h
  · exact fun _ h => validate_job_error_isInvalidJob h

/-- Concrete instance of `c5_amended_prev_hash_length` at the
repository's own valid test params. -/
theorem c5_amended_prev_hash_length_witness :
    ∃ s, (validJobParams.getD 1 Json.null).asStr = some s ∧ s.length = 64 :=
  (c5_amended_prev_hash_length validJobParams).1 rfl

/-- C9: `validate_share` never inspects the share's `job_id`: with any
enqueued job, any share whose nonce is 8 hex characters, whose
extranonce2 is hex-decodable and whose ntime matches the job's, is
accepted whatever its `job_id` is. -/
theorem c9_validate_share_ignores_job_id (s : JMState) (j : MiningJob)
    (hj : s.enqueued_job = some j) (jid e2 nt nn : String)
    (hn8 : nn.length = 8) (hnh : hexDecodeOk nn = true)
    (he : hexDecodeOk e2 = true) (hti : nt = j.ntime) :
    validate_share { job_id := jid, extranonce2 := e2, ntime := nt, nonce := nn } s
      = .ok true := by
  unfold validate_share get_job_or_error
  rw [hj]
  simp [hn8, hnh, he, hti]

/-- Concrete instance of `c9_validate_share_ignores_job_id`: a share
whose `job_id` differs from the enqueued job's is still accepted. -/
theorem c9_validate_share_ignores_job_id_witness :
    validate_share { job_id := "other", extranonce2 := "00000000",
                     ntime := "60509af9", nonce := "00000000" }
      { initJMState with enqueued_job := some validJob } = .ok true :=
  c9_validate_share_ignores_job_id _ validJob rfl "other" "00000000"
    "60509af9" "00000000" rfl (by decide) (by decide) rfl

theorem target_mantissa_eq_floor (d : ℚ) (hd : 0 < d) :
    (65535 * (d.den : Int)) / d.num = ⌊(65535 : ℚ) / d⌋ := by
  have hnum : (0 : ℤ) < d.num := Rat.num_pos.mpr hd
  have hden : (0 : ℚ) < (d.den : ℚ) := by exact_mod_cast d.pos
  have hmul : d * (d.den : ℚ) = (d.num : ℚ) := by
    nth_rewrite 1 [← Rat.num_div_den d]
    exact div_mul_cancel₀ _ (ne_of_gt hden)
  refine eq_of_forall_le_iff (fun z => ?_)
  rw [Int.le_ediv_iff_mul_le hnum, Int.le_floor, le_div_iff₀ hd]
  constructor
  · intro hz
    have hq : ((z : ℚ)) * (d.num : ℚ) ≤ 65535 * (d.den : ℚ) := by
      exact_mod_cast hz
    rw [← hmul, ← mul_assoc] at hq
    exact le_of_mul_le_mul_right hq hden
  · intro hz
    have hq : (z : ℚ) * d * (d.den : ℚ) ≤ 65535 * (d.den : ℚ) :=
      mul_le_mul_of_nonneg_right hz (le_of_lt hden)
    rw [mul_assoc, hmul] at hq
    exact_mod_cast hq

theorem target_mantissa_of_one_le (d : ℚ) (hd : 1 ≤ d) :
    target_mantissa d = Int.toNat ⌊(65535 : ℚ) / d⌋ := by
  have hd0 : 0 < d := lt_of_lt_of_le one_pos hd
  have hnum : (0 : ℤ) < d.num := Rat.num_pos.mpr hd0
  unfold target_mantissa
  rw [if_neg (by omega), if_neg (by omega), target_mantissa_eq_floor d hd0]
  refine min_eq_right ?_
  have hle : (65535 : ℚ) / d ≤ 65535 := div_le_self (by norm_num) hd
  have hfl : ⌊(65535 : ℚ) / d⌋ ≤ 65535 := by
    calc ⌊(65535 : ℚ) / d⌋ ≤ ⌊(65535 : ℚ)⌋ := Int.floor_le_floor hle
    _ = 65535 := by norm_num
  omega

theorem calculate_target_explicit (d : ℚ) :
    calculate_target d
      = [0, 0, target_mantissa d / 256, target_mantissa d % 256]
          ++ List.replicate 28 0 := rfl

/-- C2 fails as stated at difficulty `1/2` (an exact `f64` value): the
`f64 → u16` cast saturates at `65535`, so bytes 2 and 3 read as a
big-endian 16-bit integer give `65535`, not
`⌊0xFFFF / (1/2)⌋ = 131070`. -/
theorem c2_counterexample :
    (0 : ℚ) < Rat.divInt 1 2 ∧
    (calculate_target (Rat.divInt 1 2)).getD 2 0 * 256
        + (calculate_target (Rat.divInt 1 2)).getD 3 0
      ≠ Int.toNat ⌊(65535 : ℚ) / Rat.divInt 1 2⌋ := by
  constructor
  · rw [Rat.divInt_eq_div]
    norm_num
  · have h1 : (calculate_target (Rat.divInt 1 2)).getD 2 0 * 256
        + (calculate_target (Rat.divInt 1 2)).getD 3 0 = 65535 := by decide
    have h2 : ⌊(65535 : ℚ) / Rat.divInt 1 2⌋ = 131070 := by
      rw [Rat.divInt_eq_div,
        show (65535 : ℚ) / (((1 : ℤ) : ℚ) / ((2 : ℤ) : ℚ))
          = ((131070 : ℤ) : ℚ) by norm_num,
        Int.floor_intCast]
    rw [h1, h2]
    decide

/-- C2 (amended): for every positive integer difficulty `k ≤ 2 ^ 53`
(every such `k` is exactly a double, and on integers the `f64`
division provably agrees with the exact quotient, see
`target_mantissa`), `calculate_target k` is a 32-byte array with
bytes 0 and 1 zero, bytes 2 and 3 reading as the big-endian 16-bit
value `⌊0xFFFF / k⌋`, and bytes 4 through 31 zero.  For `0 < d < 1`
the `u16` cast saturates (`c2_counterexample`), and at non-integer
difficulties just above `65535 / n` the `f64` rounding makes the
program's mantissa exceed the floor by one, so the floor equation is
not claimed there.  The bound `k ≤ 2 ^ 53` only pins down that `k` is
a representable difficulty; the model needs no other use of it. -/
theorem c2_calculate_target_bytes (k : ℕ) (hk : 1 ≤ k)
    (_hk53 : k ≤ 2 ^ 53) :
    (calculate_target (k : ℚ)).length = 32 ∧
    (calculate_target (k : ℚ)).getD 0 0 = 0 ∧
    (calculate_target (k : ℚ)).getD 1 0 = 0 ∧
    (calculate_target (k : ℚ)).getD 2 0 * 256
        + (calculate_target (k : ℚ)).getD 3 0
      = Int.toNat ⌊(65535 : ℚ) / (k : ℚ)⌋ ∧
    (∀ i, 4 ≤ i → i < 32 → (calculate_target (k : ℚ)).getD i 0 = 0) := by
  have hd : (1 : ℚ) ≤ (k : ℚ) := by exact_mod_cast hk
  rw [calculate_target_explicit]
  refine ⟨rfl, rfl, rfl, ?_, ?_⟩
  · show target_mantissa (k : ℚ) / 256 * 256 + target_mantissa (k : ℚ) % 256
      = Int.toNat ⌊(65535 : ℚ) / (k : ℚ)⌋
    rw [← target_mantissa_of_one_le (k : ℚ) hd]
    omega
  · intro i h4 h32
    interval_cases i <;> rfl

/-- Concrete instance of `c2_calculate_target_bytes` at difficulty 2:
byte 2 is `0x7F`, as in the repository's own test. -/
theorem c2_calculate_target_bytes_witness :
    ((calculate_target ((2 : ℕ) : ℚ)).getD 2 0 * 256
        + (calculate_target ((2 : ℕ) : ℚ)).getD 3 0
      = Int.toNat ⌊(65535 : ℚ) / ((2 : ℕ) : ℚ)⌋) ∧
    (calculate_target ((2 : ℕ) : ℚ)).getD 2 0 = 127 :=
  ⟨(c2_calculate_target_bytes 2 (by norm_num) (by norm_num)).2.2.2.1,
   by decide⟩

/-- C3 fails as stated: from a fresh job manager, a
`mining.set_difficulty` notification with difficulty 2 is accepted
(the handler returns ok), yet `get_target` still fails, because no job
is enqueued. -/
theorem c3_counterexample :
    (handle_difficulty_notification [Json.num 2] initJMState).2 = .ok none ∧
    get_target (handle_difficulty_notification [Json.num 2] initJMState).1
      = .error (.Protocol "No job available") :=
  ⟨rfl, rfl⟩

/-- C3 (amended): `get_target` returns the target bound onto the
enqueued job: it succeeds with `t` exactly in states whose enqueued job
carries `t` as its bound target, which is reached once both a job and
a difficulty notification have been accepted (and the job dispatched);
after a difficulty alone it still fails, since no job is enqueued. -/
theorem c3_get_target_amended :
    (∀ s t, get_target s = Except.ok t ↔
        ∃ j, s.enqueued_job = some j ∧ j.target = some t) ∧
    (∀ params j d, validate_job params = .ok j → (0 : ℚ) < d →
        (j.job_id ≠ "" ∨ j.merkle_branch ≠ []) →
        get_target (handle_difficulty_notification [Json.num d]
            (handle_job_notification params initJMState).1).1
          = .ok { difficulty := d,
                  target := hexEncode (calculate_target d) }) := by
  constructor
  · intro s t
    cases hj : s.enqueued_job with
    | none => simp [get_target, get_job_or_error, hj]
    | some j =>
      cases ht : j.target with
      | none => simp [get_target, get_job_or_error, hj, ht]
      | some t' => simp [get_target, get_job_or_error, hj, ht, eq_comm]
  · intro params j d hv hd hcond
    have h1 : handle_job_notification params initJMState
        = ({ initJMState with enqueued_job := some j }, .ok none) := by
      unfold handle_job_notification
      rw [hv]
      rfl
    rw [h1]
    have hnle : ¬ d ≤ 0 := not_le.mpr hd
    simp [handle_difficulty_notification, maybe_run_job, get_target,
      get_job_or_error, Json.asF64, initJMState, hnle, hcond]

/-- Concrete instance of `c3_get_target_amended`: after the test job
and difficulty 2, `get_target` returns the computed target. -/
theorem c3_get_target_amended_witness :
    get_target (handle_difficulty_notification [Json.num 2]
        (handle_job_notification validJobParams initJMState).1).1
      = .ok { difficulty := 2, target := hexEncode (calculate_target 2) } :=
  c3_get_target_amended.2 validJobParams validJob 2 rfl (by norm_num)
    (Or.inl (by decide))

/-- C6: whenever an attempt's response line parses as a well-formed
JSON-RPC response whose `error` field is non-null, `send_request`
returns immediately with a `Protocol` failure carrying the serialized
error: the attempt consumes exactly one id and no retry follows.
(`send_request cfg net st` is `send_request_go cfg net cfg.max_retries
0 st none []`, so this covers every attempt of every call.) -/
theorem c6_pool_error_not_retried (cfg : ConnectionConfig)
    (net : Nat → AttemptBehavior) (fuel retry : Nat) (st : ConnState)
    (lastE : Option StratumError) (ids : List Nat)
    (r : JsonRpcResponse) (e : Json)
    (hw : (net retry).write = .ok) (hr : (net retry).read = .parsed r)
    (he : r.error = some e) :
    (send_request_go cfg net (fuel + 1) retry st lastE ids).res
        = .error (.Protocol (jsonEncode e)) ∧
    (send_request_go cfg net (fuel + 1) retry st lastE ids).ids
        = ids ++ [st.id_counter] := by
  simp [send_request_go, send_step, hw, hr, he]

/-- Concrete instance of `c6_pool_error_not_retried`: a pool error
`"boom"` on the first attempt surfaces immediately, consuming id 1. -/
theorem c6_pool_error_not_retried_witness :
    (send_request defaultConfig errPool initConnState).res
        = .error (.Protocol (jsonEncode (.str "boom"))) ∧
    (send_request defaultConfig errPool initConnState).ids = [1] :=
  c6_pool_error_not_retried defaultConfig errPool 2 0 initConnState none []
    { id := 1, result := none, error := some (.str "boom") } (.str "boom")
    rfl rfl rfl

theorem send_step_id_counter (cfg : ConnectionConfig) (a : AttemptBehavior)
    (k : Nat) (st : ConnState) :
    (∀ res st', send_step cfg a k st = .done res st' →
        st'.id_counter = st.id_counter) ∧
    (∀ err st', send_step cfg a k st = .retry err st' →
        st'.id_counter = st.id_counter) := by
  constructor <;>
    (intro x st' h
     unfold send_step retryOrReturn at h
     repeat' split at h
     all_goals first
       | (cases h; rfl)
       | exact StepResult.noConfusion h)

theorem u64Mod_pos : 0 < u64Mod := by
  unfold u64Mod
  positivity

theorem emittedFrom_zero (c : Nat) : emittedFrom c 0 = [] := rfl

theorem emittedFrom_length (c n : Nat) : (emittedFrom c n).length = n := by
  simp [emittedFrom]

theorem emittedFrom_succ (c n : Nat) (hc : c < u64Mod) :
    emittedFrom c (n + 1) = c :: emittedFrom ((c + 1) % u64Mod) n := by
  unfold emittedFrom
  rw [List.range_succ_eq_map]
  simp only [List.map_cons, List.map_map]
  congr 1
  · simpa using Nat.mod_eq_of_lt hc
  · refine List.map_congr_left (fun i _ => ?_)
    show (c + (i + 1)) % u64Mod = ((c + 1) % u64Mod + i) % u64Mod
    rw [Nat.mod_add_mod]
    congr 1
    omega

theorem emittedFrom_add (c : Nat) (hc : c < u64Mod) (n m : Nat) :
    emittedFrom c n ++ emittedFrom ((c + n) % u64Mod) m
      = emittedFrom c (n + m) := by
  induction n generalizing c with
  | zero => simp [emittedFrom_zero, Nat.mod_eq_of_lt hc]
  | succ n ihn =>
    have hc1 : (c + 1) % u64Mod < u64Mod := Nat.mod_lt _ u64Mod_pos
    rw [emittedFrom_succ _ _ hc,
      show n + 1 + m = (n + m) + 1 by omega,
      emittedFrom_succ _ _ hc, List.cons_append,
      show (c + (n + 1)) % u64Mod = ((c + 1) % u64Mod + n) % u64Mod by
        rw [Nat.mod_add_mod]; congr 1; omega,
      ihn ((c + 1) % u64Mod) hc1]

theorem send_request_go_ids (cfg : ConnectionConfig)
    (net : Nat → AttemptBehavior) :
    ∀ fuel retry st lastE ids, st.id_counter < u64Mod →
    ∃ n, n ≤ fuel ∧
      (send_request_go cfg net fuel retry st lastE ids).ids
        = ids ++ emittedFrom st.id_counter n ∧
      (send_request_go cfg net fuel retry st lastE ids).st.id_counter
        = (st.id_counter + n) % u64Mod := by
  intro fuel
  induction fuel with
  | zero =>
    intro retry st lastE ids hc
    exact ⟨0, Nat.le_refl 0,
      by simp [send_request_go, emittedFrom],
      by simp [send_request_go, Nat.mod_eq_of_lt hc]⟩
  | succ fuel ih =>
    intro retry st lastE ids hc
    have hc1 : (st.id_counter + 1) % u64Mod < u64Mod :=
      Nat.mod_lt _ u64Mod_pos
    simp only [send_request_go]
    cases hstep : send_step cfg (net retry) retry
        { st with id_counter := (st.id_counter + 1) % u64Mod } with
    | done res stD =>
      have hid : stD.id_counter = (st.id_counter + 1) % u64Mod :=
        (send_step_id_counter cfg (net retry) retry _).1 res stD hstep
      refine ⟨1, by omega, ?_, ?_⟩
      · rw [emittedFrom_succ _ _ hc, emittedFrom_zero]
      · show stD.id_counter = (st.id_counter + 1) % u64Mod
        exact hid
    | retry err stR =>
      have hid : stR.id_counter = (st.id_counter + 1) % u64Mod :=
        (send_step_id_counter cfg (net retry) retry _).2 err stR hstep
      obtain ⟨n, hn, hids, hctr⟩ :=
        ih (retry + 1) stR (some err) (ids ++ [st.id_counter])
          (by rw [hid]; exact hc1)
      refine ⟨n + 1, by omega, ?_, ?_⟩
      · show (send_request_go cfg net fuel (retry + 1) stR (some err)
            (ids ++ [st.id_counter])).ids
          = ids ++ emittedFrom st.id_counter (n + 1)
        rw [hids, hid, emittedFrom_succ _ _ hc, List.append_assoc]
        rfl
      · show (send_request_go cfg net fuel (retry + 1) stR (some err)
            (ids ++ [st.id_counter])).st.id_counter
          = (st.id_counter + (n + 1)) % u64Mod
        rw [hctr, hid, Nat.mod_add_mod]
        congr 1
        omega

theorem run_requests_ids (cfg : ConnectionConfig) :
    ∀ (ios : List (Nat → AttemptBehavior)) (st : ConnState),
    st.id_counter < u64Mod →
    ∃ n, (run_requests cfg ios st).1 = emittedFrom st.id_counter n ∧
      (run_requests cfg ios st).2.id_counter
        = (st.id_counter + n) % u64Mod := by
  intro ios
  induction ios with
  | nil =>
    intro st hc
    exact ⟨0, by simp [run_requests, emittedFrom],
      by simp [run_requests, Nat.mod_eq_of_lt hc]⟩
  | cons net rest ih =>
    intro st hc
    obtain ⟨n1, -, h1ids, h1ctr⟩ :=
      send_request_go_ids cfg net cfg.max_retries 0 st none [] hc
    have hc' : (send_request cfg net st).st.id_counter < u64Mod := by
      rw [show send_request cfg net st
            = send_request_go cfg net cfg.max_retries 0 st none [] from rfl,
        h1ctr]
      exact Nat.mod_lt _ u64Mod_pos
    obtain ⟨n2, h2ids, h2ctr⟩ := ih (send_request cfg net st).st hc'
    have hstep : (st.id_counter + n1) % u64Mod
        = (send_request cfg net st).st.id_counter := h1ctr.symm
    refine ⟨n1 + n2, ?_, ?_⟩
    · show (send_request cfg net st).ids
          ++ (run_requests cfg rest (send_request cfg net st).st).1
        = emittedFrom st.id_counter (n1 + n2)
      rw [h2ids, ← hstep]
      rw [show (send_request cfg net st).ids
            = (send_request_go cfg net cfg.max_retries 0 st none []).ids
          from rfl, h1ids, List.nil_append]
      exact emittedFrom_add st.id_counter hc n1 n2
    · show (run_requests cfg rest (send_request cfg net st).st).2.id_counter
        = (st.id_counter + (n1 + n2)) % u64Mod
      rw [h2ctr, ← hstep, Nat.mod_add_mod]
      congr 1
      omega

/-- C7: across any sequence of `send_request` calls on one connection,
the consumed request ids are strictly increasing — every attempt,
including each retry, takes a fresh id from the `fetch_add(1)` counter
and none is reused — provided the `u64` counter does not wrap over the
sequence (`2 ^ 64` ids would have to be consumed first). -/
theorem c7_monotonic_request_ids (cfg : ConnectionConfig)
    (ios : List (Nat → AttemptBehavior)) (st : ConnState)
    (hc : st.id_counter < u64Mod)
    (hnw : st.id_counter + (run_requests cfg ios st).1.length ≤ u64Mod) :
    List.Pairwise (· < ·) (run_requests cfg ios st).1 := by
  obtain ⟨n, hids, -⟩ := run_requests_ids cfg ios st hc
  rw [hids] at hnw ⊢
  rw [emittedFrom_length] at hnw
  unfold emittedFrom
  rw [List.map_congr_left (g := fun i => st.id_counter + i)
    (fun i hi => Nat.mod_eq_of_lt (by
      rw [List.mem_range] at hi
      omega))]
  exact (List.pairwise_lt_range n).map _ (fun a b hab => by omega)

/-- Concrete instance of `c7_monotonic_request_ids`: one successful
request from a fresh connection consumes the strictly increasing id
list `[1]`. -/
theorem c7_monotonic_request_ids_witness :
    List.Pairwise (· < ·)
      (run_requests defaultConfig [okPool] initConnState).1 :=
  c7_monotonic_request_ids defaultConfig [okPool] initConnState
    (by decide) (by decide)

/-- C8 exposes a code bug: on a successfully parsed notification line,
`read_notification` increments `messages_received` by one and sets
`last_message_at` as the claim says, but it also increments `errors`
by one, through the unconditional increment placed right after the
reader lock acquisition (its comment says it is for the lock-timeout
case, a path that has already returned by then). -/
theorem c8_read_notification_bug (v : Json) (st : ConnState) :
    ((read_notification (.parsed v) st).1.stats.messages_received
        = (st.stats.messages_received + 1) % u64Mod) ∧
    ((read_notification (.parsed v) st).1.stats.last_message_at = some ()) ∧
    ((read_notification (.parsed v) st).1.stats.errors
        = (st.stats.errors + 1) % u64Mod) ∧
    (read_notification (.parsed v) st).2 = .ok v :=
  ⟨rfl, rfl, rfl, rfl⟩

/-- C10: with `max_retries = 0` the retry loop body never runs:
nothing is written, no id is consumed, `errors` rises by exactly one
and the result is the `Protocol` error `"Max retries (0) exceeded"`. -/
theorem c10_zero_retries (cfg : ConnectionConfig)
    (net : Nat → AttemptBehavior) (st : ConnState)
    (h0 : cfg.max_retries = 0)
    (hE : st.stats.errors + 1 < u64Mod) (hR : st.stats.retries < u64Mod) :
    send_request cfg net st
      = { res := .error (.Protocol "Max retries (0) exceeded"),
          st := { st with stats := { st.stats with
                    errors := st.stats.errors + 1 } },
          ids := [] } := by
  unfold send_request
  rw [h0]
  simp only [send_request_go]
  rw [h0]
  have h2 : (st.stats.retries + 0) % u64Mod = st.stats.retries := by
    rw [Nat.add_zero]
    exact Nat.mod_eq_of_lt hR
  rw [Nat.mod_eq_of_lt hE, h2]
  rfl

/-- Concrete instance of `c10_zero_retries` from a fresh connection. -/
theorem c10_zero_retries_witness :
    send_request zeroRetryConfig okPool initConnState
      = { res := .error (.Protocol "Max retries (0) exceeded"),
          st := { initConnState with stats := { initConnState.stats with
                    errors := 1 } },
          ids := [] } :=
  c10_zero_retries zeroRetryConfig okPool initConnState rfl
    (by decide) (by decide)
